import Mathlib

/-!
Verification of the MusicBox single-file Flask application (src/app.py).

The SQLite tables (users, songs, playlists, playlist_songs) are embedded as
lists of rows; the uploads directory is a list of stored filenames.  Each
route handler that the claims mention is translated into a pure function on
this state.  SQLite specifics that matter here:
* the primary key of playlist_songs is (playlist_id, song_id), so an INSERT
  of an existing pair raises sqlite3.IntegrityError;
* foreign keys are declared but not enforced (PRAGMA foreign_keys is off by
  default), so inserts never fail on a missing playlist or song;
* LIKE is case-insensitive for ASCII and treats the percent sign as a
  wildcard for any sequence and the underscore as a wildcard for one
  character.
-/

namespace MusicApp

/-- Row of the users table (created_at omitted: no claim reads it). -/
structure UserRow where
  id : Int
  username : String
  email : String
  password_hash : String
deriving DecidableEq, Repr

/-- Row of the songs table. -/
structure SongRow where
  id : Int
  user_id : Int
  title : String
  filename : String
  uploaded_at : String
deriving DecidableEq, Repr

/-- Row of the playlists table (created_at omitted: no claim reads it). -/
structure PlaylistRow where
  id : Int
  user_id : Int
  name : String
deriving DecidableEq, Repr

/-- The database: the four tables of init_db.  A playlist_songs row is the
pair (playlist_id, song_id). -/
structure DB where
  users : List UserRow
  songs : List SongRow
  playlists : List PlaylistRow
  playlist_songs : List (Int × Int)
deriving DecidableEq, Repr

/-! ### Media storage: allowed_file and the upload handler -/

/-- ALLOWED_EXT = \x7b"mp3", "ogg", "wav", "m4a"\x7d from app.py. -/
def ALLOWED_EXT : List String := ["mp3", "ogg", "wav", "m4a"]

/-- Python filename.rsplit(".", 1)[1]: the characters after the last dot.
Returns [] when no dot occurs (in app.py that index is never reached then,
because the conjunction short-circuits). -/
def afterLastDot : List Char → List Char
  | [] => []
  | c :: rest =>
    if c = '.' ∧ '.' ∉ rest then rest else afterLastDot rest

/-- allowed_file from app.py:
"." in filename and filename.rsplit(".", 1)[1].lower() in ALLOWED_EXT. -/
def allowed_file (filename : String) : Bool :=
  decide ('.' ∈ filename.data) &&
    decide (String.mk ((afterLastDot filename.data).map Char.toLower) ∈ ALLOWED_EXT)

/-- Outcome of the upload POST handler. -/
inductive UploadResult where
  | noFile
  | badExt
  | saved (stored : String)
deriving DecidableEq, Repr

/-- The upload POST handler of app.py, restricted to its effect on the
uploads directory (the list of stored filenames).  The file part is
(Option of the original filename); secure stands for werkzeug
secure_filename and ts for the integer timestamp prefix.  The catalog INSERT that
follows a successful save is not needed by any claim. -/
def upload (fs : List String) (secure : String → String) (ts : Nat)
    (file : Option String) : UploadResult × List String :=
  match file with
  | none => (.noFile, fs)
  | some origName =>
    if origName = "" then (.noFile, fs)
    else if !allowed_file origName then (.badExt, fs)
    else
      let filename := secure (toString ts ++ "_" ++ origName)
      (.saved filename, fs ++ [filename])

/-! ### Playlist membership: add_to_playlist, remove_from_playlist -/

/-- Outcome of add_to_playlist: success, or the caught IntegrityError. -/
inductive AddResult where
  | ok
  | duplicate
deriving DecidableEq, Repr

/-- song_id = int(request.form.get("song_id") or 0): a missing field gives
None and (None or 0) is 0; an empty string is falsy as well; any other
string goes through int(), which fails (none here) on non-numeric input. -/
def coerce_song_id (formValue : Option String) : Option Int :=
  match formValue with
  | none => some 0
  | some s => if s = "" then some 0 else s.toInt?

/-- add_to_playlist from app.py: INSERT INTO playlist_songs; the composite
primary key makes the insert raise IntegrityError exactly when the pair is
already present, and the handler catches that and leaves the table as it
was. -/
def add_to_playlist (db : DB) (playlist_id song_id : Int) : AddResult × DB :=
  if (playlist_id, song_id) ∈ db.playlist_songs then
    (.duplicate, db)
  else
    (.ok, { db with playlist_songs := db.playlist_songs ++ [(playlist_id, song_id)] })

/-- remove_from_playlist from app.py:
DELETE FROM playlist_songs WHERE playlist_id = ? AND song_id = ?. -/
def remove_from_playlist (db : DB) (playlist_id song_id : Int) : DB :=
  { db with playlist_songs :=
      db.playlist_songs.filter (fun m => !(m.1 == playlist_id && m.2 == song_id)) }

/-! ### delete_playlist -/

/-- delete_playlist from app.py: first
DELETE FROM playlist_songs WHERE playlist_id = ?, then
DELETE FROM playlists WHERE id = ? AND user_id = session user. -/
def delete_playlist (db : DB) (sessionUser playlist_id : Int) : DB :=
  { db with
    playlist_songs := db.playlist_songs.filter (fun m => !(m.1 == playlist_id)),
    playlists := db.playlists.filter
      (fun p => !(p.id == playlist_id && p.user_id == sessionUser)) }

/-! ### delete_song -/

/-- Outcome of delete_song, matching its three exits. -/
inductive DeleteSongResult where
  | notFound
  | forbidden
  | deleted
deriving DecidableEq, Repr

/-- delete_song from app.py.  The fs argument is the uploads directory and
removeOk says whether os.remove succeeds when attempted; when it raises, the
handler catches and logs, so the filesystem stays as it was and the DELETE
of the row still runs.  SELECT ... LIMIT 1 is find?. -/
def delete_song (db : DB) (fs : List String) (removeOk : Bool)
    (sessionUser song_id : Int) : DeleteSongResult × DB × List String :=
  match db.songs.find? (fun s => s.id == song_id) with
  | none => (.notFound, db, fs)
  | some row =>
    if row.user_id ≠ sessionUser then (.forbidden, db, fs)
    else
      let fs' :=
        if fs.contains row.filename && removeOk then
          fs.filter (fun f => !(f == row.filename))
        else fs
      (.deleted, { db with songs := db.songs.filter (fun s => !(s.id == song_id)) }, fs')

/-! ### login -/

/-- Result of the login POST handler: a session bound to the user id, or the
single generic flash message of the else branch. -/
inductive LoginResult where
  | success (user_id : Int)
  | invalidCredentials (message : String)
deriving DecidableEq, Repr

/-- The one generic failure message of the login handler. -/
def genericLoginError : String := "Tên đăng nhập/email hoặc mật khẩu không đúng."

/-- login from app.py: SELECT id, password_hash FROM users WHERE
username = ? OR email = ? LIMIT 1, then check_password_hash; both a missing
row and a failed hash check fall into the same else branch.  check stands
for werkzeug check_password_hash (hash, then candidate password). -/
def login (check : String → String → Bool) (db : DB)
    (ident password : String) : LoginResult :=
  match db.users.find? (fun u => u.username == ident || u.email == ident) with
  | none => .invalidCredentials genericLoginError
  | some u =>
    if check u.password_hash password then .success u.id
    else .invalidCredentials genericLoginError

/-! ### The index route: song listing and search

The handler strips q; when q is non-empty it runs
SELECT ... FROM songs JOIN users ON users.id = songs.user_id
WHERE songs.title LIKE ? ORDER BY songs.id DESC with the pattern built as
a percent sign, then q, then a percent sign; otherwise the same without the
WHERE clause and with LIMIT 200. -/

/-- Python str.strip(): drop whitespace from both ends (ASCII whitespace;
the queries of the claims use no exotic space characters). -/
def pyStrip (s : String) : String :=
  String.mk (((s.data.dropWhile Char.isWhitespace).reverse.dropWhile
    Char.isWhitespace).reverse)

/-- Does f hold of some tail of the list (the list itself included, the
empty tail included)? -/
def anyTail (f : List Char → Bool) : List Char → Bool
  | [] => f []
  | c :: cs => f (c :: cs) || anyTail f cs

/-- SQLite LIKE on a pattern and a subject: the percent sign matches any
sequence, the underscore matches exactly one character, any other character
matches case-insensitively (ASCII folding, which is what SQLite does). -/
def likeMatch : List Char → List Char → Bool
  | [], s => s.isEmpty
  | p :: ps, s =>
    if p = '%' then anyTail (fun t => likeMatch ps t) s
    else
      match s with
      | [] => false
      | c :: cs =>
        (if p = '_' then true else p.toLower == c.toLower) && likeMatch ps cs

/-- The LIKE pattern the handler builds around the stripped query. -/
def likePattern (q : String) : List Char := '%' :: (q.data ++ ['%'])

/-- ORDER BY songs.id DESC as a relation on song rows. -/
def newestFirst (a b : SongRow) : Prop := b.id ≤ a.id

instance : DecidableRel newestFirst := fun a b => Int.decLe b.id a.id

instance : IsTotal SongRow newestFirst :=
  ⟨fun a b => le_total b.id a.id⟩

instance : IsTrans SongRow newestFirst :=
  ⟨fun _ _ _ hab hbc => le_trans hbc hab⟩

/-- ORDER BY songs.id DESC on a list of song rows. -/
def sortByIdDesc (l : List SongRow) : List SongRow :=
  List.insertionSort newestFirst l

/-- The index route of app.py, restricted to which song rows come back and
in which order (the handler also pulls each uploader name through the JOIN,
which drops any song whose user row is missing).  qraw is the raw q query
parameter, stripped first. -/
def index (db : DB) (qraw : String) : List SongRow :=
  let q := pyStrip qraw
  let joined := db.songs.filter
    (fun s => db.users.any (fun u => u.id == s.user_id))
  if q = "" then (sortByIdDesc joined).take 200
  else sortByIdDesc (joined.filter (fun s => likeMatch (likePattern q) s.title.data))

/-! ### Specification-side predicates and executable checks -/

/-- The term has none of the two LIKE wildcard characters. -/
def noWildcard (q : String) : Prop := ∀ c ∈ q.data, c ≠ '%' ∧ c ≠ '_'

/-- The title contains the term as a case-insensitive substring (ASCII
folding on both sides). -/
def containsCI (term title : String) : Prop :=
  ∃ a b, title.data.map Char.toLower = a ++ term.data.map Char.toLower ++ b

/-- Executable check that p is a prefix of s. -/
def prefixCheck : List Char → List Char → Bool
  | [], _ => true
  | _ :: _, [] => false
  | p :: ps, c :: cs => p == c && prefixCheck ps cs

/-- Executable check that p occurs contiguously inside s. -/
def substrCheck (p s : List Char) : Bool := anyTail (fun t => prefixCheck p t) s

/-- Specification reading of the upload extension rule: the filename splits
as prefix, dot, extension with no further dot in the extension, and the
lowercased extension is on the allow-list. -/
def extensionAllowedSpec (filename : String) : Prop :=
  ∃ pre ext, filename.data = pre ++ '.' :: ext ∧ '.' ∉ ext ∧
    String.mk (ext.map Char.toLower) ∈ ALLOWED_EXT

instance (q : String) : Decidable (noWildcard q) :=
  inferInstanceAs (Decidable (∀ c ∈ q.data, c ≠ '%' ∧ c ≠ '_'))

/-! ### Concrete fixtures used by witnesses and counterexamples -/

/-- A user row for concrete runs. -/
def anaUser : UserRow := ⟨1, "ana", "ana@x.com", "hash-ana"⟩

/-- A second user row for concrete runs. -/
def bobUser : UserRow := ⟨2, "bob", "bob@x.com", "hash-bob"⟩

/-- A song titled Midnight Drive, uploaded by user 1. -/
def midnightSong : SongRow := ⟨1, 1, "Midnight Drive", "10_demo.mp3", "t0"⟩

/-- A song whose title axb matches the LIKE pattern a_b without containing
the substring a_b. -/
def axbSong : SongRow := ⟨1, 1, "axb", "11_axb.mp3", "t0"⟩

/-- One-user one-song database for search runs. -/
def searchDB : DB := ⟨[anaUser], [midnightSong], [], []⟩

/-- One-user one-song database for the wildcard counterexample. -/
def wildcardDB : DB := ⟨[anaUser], [axbSong], [], []⟩

/-- A song owned by user 2, for ownership runs. -/
def bobSong : SongRow := ⟨3, 2, "bobs track", "12_b.mp3", "t0"⟩

/-- Database where playlist 5 is owned by user 2 and has members, and song 3
is owned by user 2 and referenced by playlist 5. -/
def ownershipDB : DB :=
  ⟨[anaUser, bobUser], [bobSong], [⟨5, 2, "mix"⟩], [(5, 3), (6, 3)]⟩

/-! ### Helper lemmas -/

/-- The Boolean filter predicate of remove_from_playlist keeps exactly the
pairs different from (playlist_id, song_id). -/
theorem pair_pred_iff (m : Int × Int) (playlist_id song_id : Int) :
    (!(m.1 == playlist_id && m.2 == song_id)) = true ↔ m ≠ (playlist_id, song_id) := by
  rcases m with ⟨a, b⟩
  simp [Prod.ext_iff]
  tauto

/-- When some row with the song id is present, find? returns such a row. -/
theorem find?_song_exists {db : DB} {song_id : Int}
    (h : ∃ s ∈ db.songs, s.id = song_id) :
    ∃ row, db.songs.find? (fun s => s.id == song_id) = some row ∧
      row ∈ db.songs ∧ row.id = song_id := by
  obtain ⟨s0, hs0, hid⟩ := h
  have hsome : (db.songs.find? (fun s => s.id == song_id)).isSome :=
    List.find?_isSome.mpr ⟨s0, hs0, by simp [hid]⟩
  obtain ⟨row, hrow⟩ := Option.isSome_iff_exists.mp hsome
  exact ⟨row, hrow, List.mem_of_find?_eq_some hrow,
    by simpa using List.find?_some hrow⟩

/-! ### C1: delete_playlist -/

/-- C1: delete_playlist removes every playlist_songs row of the playlist
unconditionally, deletes the playlists row exactly when its user_id is the
requester, and leaves the playlists table untouched when the requester owns
no row with that id. -/
theorem delete_playlist_spec (db : DB) (requester playlist_id : Int) :
    (delete_playlist db requester playlist_id).playlist_songs
        = db.playlist_songs.filter (fun m => !(m.1 == playlist_id)) ∧
    (∀ m ∈ (delete_playlist db requester playlist_id).playlist_songs,
        m.1 ≠ playlist_id) ∧
    (delete_playlist db requester playlist_id).playlists
        = db.playlists.filter
            (fun p => !(p.id == playlist_id && p.user_id == requester)) ∧
    ((∀ p ∈ db.playlists, p.id = playlist_id → p.user_id ≠ requester) →
        (delete_playlist db requester playlist_id).playlists = db.playlists) := by
  refine ⟨rfl, ?_, rfl, ?_⟩
  · intro m hm
    have h := (List.mem_filter.mp hm).2
    simpa using h
  · intro h
    show db.playlists.filter _ = db.playlists
    rw [List.filter_eq_self]
    intro p hp
    by_cases hid : p.id = playlist_id
    · simp [hid, h p hp hid]
    · simp [hid]

/-- Witness for C1 at a concrete non-owner run: requester 1 does not own
playlist 5, yet both membership rows of playlist 5 are purged while the
playlists table is unchanged. -/
theorem delete_playlist_spec_witness :
    (delete_playlist ownershipDB 1 5).playlist_songs = [(6, 3)] ∧
    (delete_playlist ownershipDB 1 5).playlists = ownershipDB.playlists := by
  have h := delete_playlist_spec ownershipDB 1 5
  exact ⟨h.1.trans (by decide), h.2.2.2 (by decide)⟩

/-! ### C2, C3, C9: delete_song -/

/-- C2: delete_song answers notFound when no songs row carries the id, and
forbidden when the song exists but is not owned by the requester; in both
cases the database and the uploads directory are returned unchanged. -/
theorem delete_song_errors (db : DB) (fs : List String) (removeOk : Bool)
    (requester song_id : Int) :
    ((∀ s ∈ db.songs, s.id ≠ song_id) →
      delete_song db fs removeOk requester song_id = (.notFound, db, fs)) ∧
    ((∃ s ∈ db.songs, s.id = song_id) →
      (∀ s ∈ db.songs, s.id = song_id → s.user_id ≠ requester) →
      delete_song db fs removeOk requester song_id = (.forbidden, db, fs)) := by
  constructor
  · intro h
    have hn : db.songs.find? (fun s => s.id == song_id) = none :=
      List.find?_eq_none.mpr fun s hs => by simpa using h s hs
    simp [delete_song, hn]
  · intro hex hforb
    obtain ⟨row, hrow, hmem, hid⟩ := find?_song_exists hex
    have hne : row.user_id ≠ requester := hforb row hmem hid
    simp [delete_song, hrow, hne]

/-- Witness for C2: song 99 is absent (notFound) and song 3 belongs to user
2, so requester 1 gets forbidden with the row and file intact. -/
theorem delete_song_errors_witness :
    delete_song ownershipDB [] true 1 99 = (.notFound, ownershipDB, []) ∧
    delete_song ownershipDB ["12_b.mp3"] true 1 3
      = (.forbidden, ownershipDB, ["12_b.mp3"]) :=
  ⟨(delete_song_errors ownershipDB [] true 1 99).1 (by decide),
   (delete_song_errors ownershipDB ["12_b.mp3"] true 1 3).2
      ⟨bobSong, by decide, by decide⟩ (by decide)⟩

/-- C3: for the owner, delete_song removes the catalog row for every
filesystem outcome: removeOk false (os.remove raised) and any fs, the file
possibly absent, never prevent the DELETE of the songs row. -/
theorem delete_song_owner_always_deletes_row (db : DB) (fs : List String)
    (removeOk : Bool) (requester song_id : Int) :
    (∃ s ∈ db.songs, s.id = song_id) →
    (∀ s ∈ db.songs, s.id = song_id → s.user_id = requester) →
    (delete_song db fs removeOk requester song_id).1 = .deleted ∧
    (delete_song db fs removeOk requester song_id).2.1.songs
        = db.songs.filter (fun s => !(s.id == song_id)) ∧
    ∀ s ∈ (delete_song db fs removeOk requester song_id).2.1.songs,
        s.id ≠ song_id := by
  intro hex hown
  obtain ⟨row, hrow, hmem, hid⟩ := find?_song_exists hex
  have howner : row.user_id = requester := hown row hmem hid
  refine ⟨?_, ?_, ?_⟩
  · simp [delete_song, hrow, howner]
  · simp [delete_song, hrow, howner]
  · intro s hs
    simp only [delete_song, hrow] at hs
    rw [if_neg (by simp [howner])] at hs
    have h := (List.mem_filter.mp hs).2
    simpa using h

/-- Witness for C3: user 2 deletes song 3 while the uploads directory is
empty (the backing file is absent) and os.remove would fail; the catalog row
is removed anyway. -/
theorem delete_song_owner_witness :
    (delete_song ownershipDB [] false 2 3).1 = .deleted ∧
    (delete_song ownershipDB [] false 2 3).2.1.songs = [] := by
  have h := delete_song_owner_always_deletes_row ownershipDB [] false 2 3
    ⟨bobSong, by decide, by decide⟩ (by decide)
  exact ⟨h.1, h.2.1.trans (by decide)⟩

/-- C9: a successful owner deletion leaves the playlist_songs table exactly
as it was, so every membership row referencing the deleted song id
survives as a dangling reference. -/
theorem delete_song_preserves_memberships (db : DB) (fs : List String)
    (removeOk : Bool) (requester song_id : Int) :
    (∃ s ∈ db.songs, s.id = song_id) →
    (∀ s ∈ db.songs, s.id = song_id → s.user_id = requester) →
    (delete_song db fs removeOk requester song_id).1 = .deleted ∧
    (delete_song db fs removeOk requester song_id).2.1.playlist_songs
        = db.playlist_songs := by
  intro hex hown
  obtain ⟨row, hrow, hmem, hid⟩ := find?_song_exists hex
  have howner : row.user_id = requester := hown row hmem hid
  constructor <;> simp [delete_song, hrow, howner]

/-- Witness for C9: deleting song 3 keeps both membership rows (5, 3) and
(6, 3) that reference it. -/
theorem delete_song_preserves_memberships_witness :
    (delete_song ownershipDB ["12_b.mp3"] true 2 3).2.1.playlist_songs
      = [(5, 3), (6, 3)] := by
  have h := delete_song_preserves_memberships ownershipDB ["12_b.mp3"] true 2 3
    ⟨bobSong, by decide, by decide⟩ (by decide)
  exact h.2.trans (by decide)

/-! ### C4, C5, C10: playlist membership -/

/-- C4: a duplicate pair makes add_to_playlist answer duplicate (the caught
IntegrityError) with the state unchanged; a fresh pair is appended; and a
membership count of at most one is preserved, so a song appears at most
once per playlist. -/
theorem add_to_playlist_spec (db : DB) (playlist_id song_id : Int) :
    ((playlist_id, song_id) ∈ db.playlist_songs →
        add_to_playlist db playlist_id song_id = (.duplicate, db)) ∧
    ((playlist_id, song_id) ∉ db.playlist_songs →
        add_to_playlist db playlist_id song_id
          = (.ok, { db with playlist_songs :=
              db.playlist_songs ++ [(playlist_id, song_id)] })) ∧
    (db.playlist_songs.count (playlist_id, song_id) ≤ 1 →
        (add_to_playlist db playlist_id song_id).2.playlist_songs.count
            (playlist_id, song_id) ≤ 1) := by
  refine ⟨fun h => by simp [add_to_playlist, h],
    fun h => by simp [add_to_playlist, h], fun hc => ?_⟩
  by_cases h : (playlist_id, song_id) ∈ db.playlist_songs
  · simpa [add_to_playlist, h] using hc
  · have h0 : db.playlist_songs.count (playlist_id, song_id) = 0 :=
      List.count_eq_zero.mpr h
    simp [add_to_playlist, h, h0]

/-- Witness for C4: the pair (5, 3) is already a member, so the second add
is a duplicate notice with no change; adding to the nonexistent playlist 7
appends the pair. -/
theorem add_to_playlist_spec_witness :
    add_to_playlist ownershipDB 5 3 = (.duplicate, ownershipDB) ∧
    (add_to_playlist ownershipDB 7 3).2.playlist_songs
      = [(5, 3), (6, 3), (7, 3)] := by
  have h := add_to_playlist_spec ownershipDB 5 3
  have h2 := add_to_playlist_spec ownershipDB 7 3
  refine ⟨h.1 (by decide), ?_⟩
  rw [h2.2.1 (by decide)]
  decide

/-- C5: remove_from_playlist on a non-member pair is the identity, the
operation is idempotent, and the pair is gone afterwards. -/
theorem remove_from_playlist_idempotent (db : DB) (playlist_id song_id : Int) :
    ((playlist_id, song_id) ∉ db.playlist_songs →
        remove_from_playlist db playlist_id song_id = db) ∧
    remove_from_playlist (remove_from_playlist db playlist_id song_id)
        playlist_id song_id
      = remove_from_playlist db playlist_id song_id ∧
    (playlist_id, song_id) ∉
      (remove_from_playlist db playlist_id song_id).playlist_songs := by
  refine ⟨?_, ?_, ?_⟩
  · intro h
    have hfix : db.playlist_songs.filter
        (fun m => !(m.1 == playlist_id && m.2 == song_id)) = db.playlist_songs :=
      List.filter_eq_self.mpr fun m hm =>
        (pair_pred_iff m playlist_id song_id).mpr fun he => h (he ▸ hm)
    unfold remove_from_playlist
    rw [hfix]
  · unfold remove_from_playlist
    congr 1
    exact List.filter_eq_self.mpr fun m hm => (List.mem_filter.mp hm).2
  · intro hmem
    have h := (List.mem_filter.mp hmem).2
    simp at h

/-- Witness for C5: removing the absent pair (9, 9) changes nothing, and
removing (5, 3) twice equals removing it once. -/
theorem remove_from_playlist_idempotent_witness :
    remove_from_playlist ownershipDB 9 9 = ownershipDB ∧
    remove_from_playlist (remove_from_playlist ownershipDB 5 3) 5 3
      = remove_from_playlist ownershipDB 5 3 :=
  ⟨(remove_from_playlist_idempotent ownershipDB 9 9).1 (by decide),
   (remove_from_playlist_idempotent ownershipDB 5 3).2.1⟩

/-- C10: beyond the session gate, add_to_playlist and remove_from_playlist
consult nothing but the playlist_songs table, so nonexistent or
foreign-owned playlists and songs behave exactly like owned existing ones;
a missing song_id form field is coerced to 0. -/
theorem membership_no_ownership_or_existence_check (db db2 : DB)
    (playlist_id song_id : Int) :
    (db.playlist_songs = db2.playlist_songs →
      (add_to_playlist db playlist_id song_id).1
          = (add_to_playlist db2 playlist_id song_id).1 ∧
      (add_to_playlist db playlist_id song_id).2.playlist_songs
          = (add_to_playlist db2 playlist_id song_id).2.playlist_songs ∧
      (remove_from_playlist db playlist_id song_id).playlist_songs
          = (remove_from_playlist db2 playlist_id song_id).playlist_songs) ∧
    ((playlist_id, song_id) ∉ db.playlist_songs →
      (add_to_playlist db playlist_id song_id).2.playlist_songs
          = db.playlist_songs ++ [(playlist_id, song_id)]) ∧
    ((playlist_id, song_id) ∈ db.playlist_songs →
      (add_to_playlist db playlist_id song_id).2.playlist_songs
          = db.playlist_songs) ∧
    (playlist_id, song_id) ∉
      (remove_from_playlist db playlist_id song_id).playlist_songs ∧
    coerce_song_id none = some 0 := by
  refine ⟨?_, fun h => by simp [add_to_playlist, h],
    fun h => by simp [add_to_playlist, h], ?_, rfl⟩
  · intro h
    by_cases hm : (playlist_id, song_id) ∈ db.playlist_songs
    · have hm2 : (playlist_id, song_id) ∈ db2.playlist_songs := h ▸ hm
      simp [add_to_playlist, remove_from_playlist, hm, hm2, h]
    · have hm2 : (playlist_id, song_id) ∉ db2.playlist_songs := h ▸ hm
      simp [add_to_playlist, remove_from_playlist, hm, hm2, h]
  · intro hmem
    have h := (List.mem_filter.mp hmem).2
    simp at h

/-- Witness for C10: playlist 42 does not exist and song 0 does not exist,
yet the pair (42, 0) is inserted; dropping every other table does not change
the outcome. -/
theorem membership_no_check_witness :
    (add_to_playlist ownershipDB 42 0).2.playlist_songs
        = [(5, 3), (6, 3), (42, 0)] ∧
    (add_to_playlist ownershipDB 42 0).1
        = (add_to_playlist ⟨[], [], [], [(5, 3), (6, 3)]⟩ 42 0).1 := by
  have h := membership_no_ownership_or_existence_check ownershipDB
    ⟨[], [], [], [(5, 3), (6, 3)]⟩ 42 0
  refine ⟨(h.2.1 (by decide)).trans (by decide), (h.1 (by decide)).1⟩

/-! ### C8: login failure indistinguishability -/

/-- C8: a run whose identifier matches a user but whose password check
fails, and a run whose identifier matches nobody, produce the very same
external result, the single generic invalidCredentials message. -/
theorem login_indistinguishable (check : String → String → Bool) (db : DB)
    (ident1 pw1 ident2 pw2 : String) :
    (∃ u ∈ db.users, u.username = ident1 ∨ u.email = ident1) →
    (∀ u ∈ db.users, (u.username = ident1 ∨ u.email = ident1) →
        check u.password_hash pw1 = false) →
    (∀ u ∈ db.users, u.username ≠ ident2 ∧ u.email ≠ ident2) →
    login check db ident1 pw1 = login check db ident2 pw2 ∧
    login check db ident1 pw1 = .invalidCredentials genericLoginError := by
  intro hex hwrong hnone
  obtain ⟨u0, hu0, hm0⟩ := hex
  have hsome : (db.users.find?
      (fun u => u.username == ident1 || u.email == ident1)).isSome :=
    List.find?_isSome.mpr ⟨u0, hu0, by rcases hm0 with h | h <;> simp [h]⟩
  obtain ⟨row, hrow⟩ := Option.isSome_iff_exists.mp hsome
  have hmem := List.mem_of_find?_eq_some hrow
  have hp : row.username = ident1 ∨ row.email = ident1 := by
    simpa using List.find?_some hrow
  have hfail : check row.password_hash pw1 = false := hwrong row hmem hp
  have hn2 : db.users.find?
      (fun u => u.username == ident2 || u.email == ident2) = none :=
    List.find?_eq_none.mpr fun u hu => by
      have h := hnone u hu
      simp [h.1, h.2]
  constructor <;> simp [login, hrow, hfail, hn2]

/-- Witness for C8: with user ana present, a wrong password for "ana" and
the unknown identifier "zoe" answer identically. -/
theorem login_indistinguishable_witness :
    login (fun _ _ => false) searchDB "ana" "wrong"
        = login (fun _ _ => false) searchDB "zoe" "pw" ∧
    login (fun _ _ => false) searchDB "ana" "wrong"
        = .invalidCredentials genericLoginError :=
  login_indistinguishable (fun _ _ => false) searchDB "ana" "wrong" "zoe" "pw"
    ⟨anaUser, by decide, Or.inl (by decide)⟩ (fun _ _ _ => rfl) (by decide)

/-! ### C6: upload extension validation -/

/-- A list splitting at the last dot pins down afterLastDot. -/
theorem afterLastDot_of_append (pre ext : List Char) (h : '.' ∉ ext) :
    afterLastDot (pre ++ '.' :: ext) = ext := by
  induction pre with
  | nil =>
    show afterLastDot ('.' :: ext) = ext
    simp [afterLastDot, h]
  | cons c pre ih =>
    show afterLastDot (c :: (pre ++ '.' :: ext)) = ext
    simp only [afterLastDot]
    rw [if_neg]
    · exact ih
    · rintro ⟨-, hnd⟩
      exact hnd (by simp)

/-- A list containing a dot splits as prefix, last dot, afterLastDot. -/
theorem contains_dot_decomp (l : List Char) (h : '.' ∈ l) :
    ∃ pre, l = pre ++ '.' :: afterLastDot l ∧ '.' ∉ afterLastDot l := by
  induction l with
  | nil => simp at h
  | cons c rest ih =>
    by_cases hrest : '.' ∈ rest
    · obtain ⟨pre, hpre, hnd⟩ := ih hrest
      have hstep : afterLastDot (c :: rest) = afterLastDot rest := by
        simp only [afterLastDot]
        rw [if_neg]
        tauto
      exact ⟨c :: pre, by rw [hstep]; exact congrArg (c :: ·) hpre,
        by rw [hstep]; exact hnd⟩
    · have hc : c = '.' := by
        rcases List.mem_cons.mp h with h1 | h1
        · exact h1.symm
        · exact absurd h1 hrest
      have hstep : afterLastDot (c :: rest) = rest := by
        simp only [afterLastDot]
        rw [if_pos ⟨hc, hrest⟩]
      exact ⟨[], by rw [hstep, hc]; rfl, by rw [hstep]; exact hrest⟩

/-- C6: allowed_file accepts exactly the filenames whose part after the last
dot, lowercased, is one of mp3, ogg, wav, m4a; track.MP3 passes, track.exe
fails, a dotless name fails, and a rejected name is never written to the
uploads directory. -/
theorem allowed_file_spec (filename : String) :
    (allowed_file filename = true ↔ extensionAllowedSpec filename) ∧
    allowed_file "track.MP3" = true ∧
    allowed_file "track.exe" = false ∧
    ('.' ∉ filename.data → allowed_file filename = false) ∧
    (∀ fs secure ts, allowed_file filename = false →
        (upload fs secure ts (some filename)).2 = fs) := by
  refine ⟨⟨?_, ?_⟩, by decide, by decide, ?_, ?_⟩
  · intro h
    rw [allowed_file, Bool.and_eq_true, decide_eq_true_iff, decide_eq_true_iff] at h
    obtain ⟨pre, hpre, hnd⟩ := contains_dot_decomp filename.data h.1
    exact ⟨pre, afterLastDot filename.data, hpre, hnd, h.2⟩
  · intro hspec
    obtain ⟨pre, ext, heq, hnd, hmem⟩ := hspec
    have h1 : '.' ∈ filename.data := by rw [heq]; simp
    have h2 : afterLastDot filename.data = ext := by
      rw [heq]; exact afterLastDot_of_append pre ext hnd
    rw [allowed_file, Bool.and_eq_true, decide_eq_true_iff, decide_eq_true_iff, h2]
    exact ⟨h1, hmem⟩
  · intro h
    simp [allowed_file, h]
  · intro fs secure ts h
    by_cases hn : filename = ""
    · simp [upload, hn]
    · simp [upload, hn, h]

/-- Witness for C6: the accepted mixed-case name satisfies the
specification split, and the dotless name song is rejected. -/
theorem allowed_file_spec_witness :
    extensionAllowedSpec "track.MP3" ∧ allowed_file "song" = false :=
  ⟨(allowed_file_spec "track.MP3").1.mp (by decide),
   (allowed_file_spec "song").2.2.2.1 (by decide)⟩

/-! ### C7: search, LIKE matching and ordering -/

/-- Characterisation of anyTail: some split of s satisfies f on its tail. -/
theorem anyTail_iff (f : List Char → Bool) :
    ∀ s, anyTail f s = true ↔ ∃ a b, s = a ++ b ∧ f b = true := by
  intro s
  induction s with
  | nil =>
    constructor
    · intro h
      exact ⟨[], [], rfl, h⟩
    · rintro ⟨a, b, hab, hf⟩
      obtain ⟨ha, hb⟩ := List.append_eq_nil.mp hab.symm
      subst ha; subst hb
      exact hf
  | cons c cs ih =>
    simp only [anyTail, Bool.or_eq_true]
    constructor
    · rintro (h | h)
      · exact ⟨[], c :: cs, rfl, h⟩
      · obtain ⟨a, b, hab, hf⟩ := ih.mp h
        exact ⟨c :: a, b, by rw [hab]; rfl, hf⟩
    · rintro ⟨a, b, hab, hf⟩
      cases a with
      | nil =>
        left
        have hb : b = c :: cs := by simpa using hab.symm
        rw [← hb]
        exact hf
      | cons a0 as =>
        right
        injection hab with h1 h2
        exact ih.mpr ⟨as, b, h2, hf⟩

/-- Characterisation of prefixCheck. -/
theorem prefixCheck_iff : ∀ p s, prefixCheck p s = true ↔ ∃ r, s = p ++ r := by
  intro p
  induction p with
  | nil =>
    intro s
    simp [prefixCheck]
  | cons x xs ih =>
    intro s
    cases s with
    | nil =>
      simp [prefixCheck]
    | cons c cs =>
      simp only [prefixCheck, Bool.and_eq_true, beq_iff_eq]
      constructor
      · rintro ⟨hx, hpc⟩
        obtain ⟨r, hr⟩ := (ih cs).mp hpc
        subst hx
        exact ⟨r, by rw [hr]; rfl⟩
      · rintro ⟨r, hr⟩
        injection hr with h1 h2
        exact ⟨h1.symm, (ih cs).mpr ⟨r, h2⟩⟩

/-- Characterisation of substrCheck: a contiguous occurrence. -/
theorem substrCheck_iff (p s : List Char) :
    substrCheck p s = true ↔ ∃ a b, s = a ++ p ++ b := by
  rw [substrCheck, anyTail_iff]
  constructor
  · rintro ⟨a, t, hat, hpt⟩
    obtain ⟨r, hr⟩ := (prefixCheck_iff p t).mp hpt
    exact ⟨a, r, by rw [hat, hr, List.append_assoc]⟩
  · rintro ⟨a, b, hab⟩
    exact ⟨a, p ++ b, by rw [hab, List.append_assoc],
      (prefixCheck_iff p (p ++ b)).mpr ⟨b, rfl⟩⟩

/-- containsCI is decided by the executable substring check on lowered
character lists. -/
theorem containsCI_iff_check (term title : String) :
    containsCI term title ↔
      substrCheck (term.data.map Char.toLower)
        (title.data.map Char.toLower) = true :=
  (substrCheck_iff _ _).symm

/-- A pattern starting with the percent wildcard matches exactly the
subjects some suffix of which matches the rest of the pattern. -/
theorem likeMatch_percent (ps s : List Char) :
    likeMatch ('%' :: ps) s = true ↔
      ∃ a b, s = a ++ b ∧ likeMatch ps b = true := by
  have h : likeMatch ('%' :: ps) s = anyTail (fun t => likeMatch ps t) s := by
    simp [likeMatch]
  rw [h, anyTail_iff]

/-- A wildcard-free pattern followed by a percent matches exactly the
subjects that start with the pattern up to ASCII case. -/
theorem likeMatch_plain_percent :
    ∀ (q : List Char), (∀ c ∈ q, c ≠ '%' ∧ c ≠ '_') →
      ∀ s, likeMatch (q ++ ['%']) s = true ↔
        ∃ a b, s = a ++ b ∧ a.map Char.toLower = q.map Char.toLower := by
  intro q
  induction q with
  | nil =>
    intro _ s
    constructor
    · intro _
      exact ⟨[], s, rfl, rfl⟩
    · intro _
      exact (likeMatch_percent [] s).mpr ⟨s, [], by simp, rfl⟩
  | cons x q ihq =>
    intro hq s
    have hx := hq x (by simp)
    have hq2 : ∀ c ∈ q, c ≠ '%' ∧ c ≠ '_' := fun c hc => hq c (by simp [hc])
    cases s with
    | nil =>
      constructor
      · intro h
        exfalso
        simp only [List.cons_append, likeMatch] at h
        rw [if_neg hx.1] at h
        simp at h
      · rintro ⟨a, b, hab, hmap⟩
        exfalso
        obtain ⟨ha, hb⟩ := List.append_eq_nil.mp hab.symm
        subst ha
        simp at hmap
    | cons c cs =>
      have heq : likeMatch ((x :: q) ++ ['%']) (c :: cs)
          = ((x.toLower == c.toLower) && likeMatch (q ++ ['%']) cs) := by
        simp only [List.cons_append, likeMatch]
        rw [if_neg hx.1, if_neg hx.2]
        rfl
      rw [heq, Bool.and_eq_true, beq_iff_eq]
      constructor
      · rintro ⟨hlow, hrest⟩
        obtain ⟨a, b, hab, hmap⟩ := (ihq hq2 cs).mp hrest
        exact ⟨c :: a, b, by rw [hab]; rfl, by simp [hmap, hlow]⟩
      · rintro ⟨a, b, hab, hmap⟩
        cases a with
        | nil => simp at hmap
        | cons a0 as =>
          injection hab with h1 h2
          simp only [List.map_cons, List.cons.injEq] at hmap
          subst h1
          exact ⟨hmap.1.symm, (ihq hq2 cs).mpr ⟨as, b, h2, hmap.2⟩⟩

/-- The pattern percent-q-percent, for wildcard-free q, matches exactly the
subjects containing q as a case-insensitive substring. -/
theorem likeMatch_pattern_iff (q s : List Char)
    (hq : ∀ c ∈ q, c ≠ '%' ∧ c ≠ '_') :
    likeMatch ('%' :: (q ++ ['%'])) s = true ↔
      ∃ a b, s.map Char.toLower = a ++ q.map Char.toLower ++ b := by
  rw [likeMatch_percent]
  constructor
  · rintro ⟨a, t, hat, ht⟩
    obtain ⟨u, v, huv, hmap⟩ := (likeMatch_plain_percent q hq t).mp ht
    refine ⟨a.map Char.toLower, v.map Char.toLower, ?_⟩
    rw [hat, huv, ← hmap]
    simp [List.map_append, List.append_assoc]
  · rintro ⟨A, B, hAB⟩
    rw [List.append_assoc] at hAB
    obtain ⟨l1, l2, hs, hl1, hl2⟩ := List.map_eq_append_iff.mp hAB
    obtain ⟨m1, m2, ht, hm1, hm2⟩ := List.map_eq_append_iff.mp hl2
    exact ⟨l1, m1 ++ m2, by rw [hs, ht],
      (likeMatch_plain_percent q hq (m1 ++ m2)).mpr ⟨m1, m2, rfl, hm1⟩⟩

/-- The branches of index, spelled out. -/
theorem index_eq (db : DB) (qraw : String) :
    index db qraw =
      if pyStrip qraw = "" then
        (sortByIdDesc (db.songs.filter
          (fun s => db.users.any (fun u => u.id == s.user_id)))).take 200
      else sortByIdDesc ((db.songs.filter
          (fun s => db.users.any (fun u => u.id == s.user_id))).filter
            (fun s => likeMatch (likePattern (pyStrip qraw)) s.title.data)) := rfl

/-- C7 (amended): the listing is always ordered newest-first (by id,
descending); the unfiltered listing is capped at 200 rows; and for a
non-empty search term free of the LIKE wildcard characters percent and
underscore, the result holds exactly the songs whose uploader row exists
and whose title contains the term as a case-insensitive substring. -/
theorem index_search_spec (db : DB) (qraw : String) :
    List.Sorted newestFirst (index db qraw) ∧
    (pyStrip qraw = "" → (index db qraw).length ≤ 200) ∧
    (pyStrip qraw ≠ "" → noWildcard (pyStrip qraw) →
      ∀ s, s ∈ index db qraw ↔
        s ∈ db.songs ∧ (∃ u ∈ db.users, u.id = s.user_id) ∧
          containsCI (pyStrip qraw) s.title) := by
  refine ⟨?_, ?_, ?_⟩
  · rw [index_eq]
    by_cases hq : pyStrip qraw = ""
    · rw [if_pos hq]
      exact List.Pairwise.sublist (List.take_sublist _ _)
        (List.sorted_insertionSort _ _)
    · rw [if_neg hq]
      exact List.sorted_insertionSort _ _
  · intro hq
    rw [index_eq, if_pos hq, List.length_take]
    exact min_le_left _ _
  · intro hq hwild s
    rw [index_eq, if_neg hq, sortByIdDesc]
    rw [(List.perm_insertionSort newestFirst _).mem_iff]
    rw [List.mem_filter, List.mem_filter]
    constructor
    · rintro ⟨⟨hsongs, hany⟩, hlike⟩
      obtain ⟨u, hu, hid⟩ := List.any_eq_true.mp hany
      exact ⟨hsongs, ⟨u, hu, by simpa using hid⟩,
        (likeMatch_pattern_iff _ _ hwild).mp hlike⟩
    · rintro ⟨hsongs, ⟨u, hu, hid⟩, hci⟩
      exact ⟨⟨hsongs, List.any_eq_true.mpr ⟨u, hu, by simp [hid]⟩⟩,
        (likeMatch_pattern_iff _ _ hwild).mpr hci⟩

/-- Witness for C7: the song titled Midnight Drive is returned for the
queries drive (stripped) and DRIVE, and an empty query is capped at 200. -/
theorem index_search_spec_witness :
    midnightSong ∈ index searchDB " drive " ∧
    midnightSong ∈ index searchDB "DRIVE" ∧
    (index searchDB "").length ≤ 200 := by
  have h1 := (index_search_spec searchDB " drive ").2.2 (by decide) (by decide)
    midnightSong
  have h2 := (index_search_spec searchDB "DRIVE").2.2 (by decide) (by decide)
    midnightSong
  have h3 := (index_search_spec searchDB "").2.1 (by decide)
  refine ⟨h1.mpr ⟨by decide, ⟨anaUser, by decide, by decide⟩, ?_⟩,
    h2.mpr ⟨by decide, ⟨anaUser, by decide, by decide⟩, ?_⟩, h3⟩
  · rw [containsCI_iff_check]
    decide
  · rw [containsCI_iff_check]
    decide

/-- Counterexample to C7 as frozen: for the term a_b the underscore acts as
a LIKE wildcard, so the song titled axb is returned even though its title
does not contain a_b as a case-insensitive substring. -/
theorem index_search_wildcard_cex :
    index wildcardDB "a_b" = [axbSong] ∧ ¬ containsCI "a_b" "axb" := by
  refine ⟨by decide, ?_⟩
  rw [containsCI_iff_check]
  decide

end MusicApp

